import Mathlib

/-!
# Plasocket minigame orchestration: verified embedding

A shallow embedding of the instance-lifecycle / scoped-broadcast core that the
`Zombies.py`, `FreeForAll.py` and `Squid_Game.py` plugins of the Plasocket
repository each implement, together with proofs about it.

Conventions:
* player identities are `String` (usernames), connection handles are `Nat`
  (websocket ids), game instance ids are `Nat`;
* Python dicts keyed by identity/id are association lists with
  last-write-wins update, matching dict assignment and `del`;
* Python sets of usernames are duplicate-free lists built with `insertUniq`.
-/

namespace Plasocket

/-! ## Association-list helpers (Python dict model) -/

/-- `d.get(k)` on a Python dict modelled as an association list. -/
def lookupA : List (String × Nat) → String → Option Nat
  | [], _ => none
  | e :: rest, k => if e.1 = k then some e.2 else lookupA rest k

/-- `k in d` on a Python dict. -/
def memA (d : List (String × Nat)) (k : String) : Bool :=
  (lookupA d k).isSome

/-- `d[k] = v` on a Python dict: overwrite any existing binding. -/
def setA (d : List (String × Nat)) (k : String) (v : Nat) : List (String × Nat) :=
  (k, v) :: d.filter (fun e => ¬ e.1 = k)

/-- `del d[k]` on a Python dict (also a no-op when `k` is absent,
matching the guarded `if k in d: del d[k]` pattern used in the source). -/
def delA (d : List (String × Nat)) (k : String) : List (String × Nat) :=
  d.filter (fun e => ¬ e.1 = k)

/-- `s.add(x)` on a Python set modelled as a duplicate-free list. -/
def insertUniq (s : List String) (x : String) : List String :=
  if x ∈ s then s else x :: s

/-- `s.discard(x)` on a Python set. -/
def discardS (s : List String) (x : String) : List String :=
  s.filter (fun y => ¬ y = x)

theorem lookupA_filter_ne (d : List (String × Nat)) (k k' : String)
    (h : k' ≠ k) :
    lookupA (d.filter (fun e => ¬ e.1 = k)) k' = lookupA d k' := by
  induction d with
  | nil => rfl
  | cons e rest ih =>
    by_cases hk : e.1 = k
    · rw [List.filter_cons_of_neg (by simp [hk])]
      rw [ih, lookupA, if_neg (by rw [hk]; exact fun hc => h hc.symm)]
    · rw [List.filter_cons_of_pos (by simp [hk])]
      by_cases hk' : e.1 = k'
      · rw [lookupA, if_pos hk', lookupA, if_pos hk']
      · rw [lookupA, if_neg hk', lookupA, if_neg hk', ih]

theorem lookupA_setA_self (d : List (String × Nat)) (k : String) (v : Nat) :
    lookupA (setA d k v) k = some v := by
  simp [lookupA, setA]

theorem lookupA_setA_ne (d : List (String × Nat)) (k k' : String) (v : Nat)
    (h : k' ≠ k) : lookupA (setA d k v) k' = lookupA d k' := by
  rw [setA, lookupA, if_neg (fun hc => h hc.symm)]
  exact lookupA_filter_ne d k k' h

theorem lookupA_delA_self (d : List (String × Nat)) (k : String) :
    lookupA (delA d k) k = none := by
  induction d with
  | nil => rfl
  | cons e rest ih =>
    by_cases hk : e.1 = k
    · rw [delA, List.filter_cons_of_neg (by simp [hk])]; exact ih
    · rw [delA, List.filter_cons_of_pos (by simp [hk]), lookupA, if_neg hk]
      exact ih

theorem lookupA_delA_ne (d : List (String × Nat)) (k k' : String)
    (h : k' ≠ k) : lookupA (delA d k) k' = lookupA d k' :=
  lookupA_filter_ne d k k' h

theorem mem_insertUniq (s : List String) (x y : String) :
    y ∈ insertUniq s x ↔ y = x ∨ y ∈ s := by
  unfold insertUniq
  split
  · constructor
    · intro h; exact Or.inr h
    · rintro (rfl | h)
      · assumption
      · exact h
  · simp [List.mem_cons]

theorem mem_discardS (s : List String) (x y : String) :
    y ∈ discardS s x ↔ y ∈ s ∧ y ≠ x := by
  simp [discardS]

/-! ## Run-length encoding (`rle_encode`)

From `FreeForAll.py` (`rle_encode(grid, width, height)`), which flattens the
grid row-major (`[item for sublist in grid for item in sublist]`) and then
scans it keeping a current value and a run counter; `Zombies.py` and
`Squid_Game.py` carry the identical scan over `grid[y][x]` in row-major
index order, which agrees on rectangular grids. -/

/-- The scanning loop of `rle_encode`: `cur` is Python's `current_id`,
`count` its run counter; a run is flushed when the value changes and once at
the end. Runs are kept as `(count, value)` pairs; rendering to the textual
parts is `renderRun`. -/
def rleRunsGo (cur : Int) (count : Nat) : List Int → List (Nat × Int)
  | [] => [(count, cur)]
  | b :: rest =>
    if b = cur then rleRunsGo cur (count + 1) rest
    else (count, cur) :: rleRunsGo b 1 rest

/-- Run list produced by the `rle_encode` scan over the flattened grid. -/
def rleRuns : List Int → List (Nat × Int)
  | [] => []
  | b :: rest => rleRunsGo b 1 rest

/-- `f"{count}x{current_id}" if count > 1 else str(current_id)`. -/
def renderRun (r : Nat × Int) : String :=
  if r.1 > 1 then toString r.1 ++ "x" ++ toString r.2 else toString r.2

/-- `rle_encode` of `FreeForAll.py`: empty flattened grid gives `""`,
otherwise the comma-join of the rendered runs. -/
def rle_encode (grid : List (List Int)) : String :=
  match grid.flatten with
  | [] => ""
  | b :: rest => String.intercalate "," ((rleRunsGo b 1 rest).map renderRun)

/-- The decoder corresponding to the run list: expand each `(count, value)`
run in order. -/
def expandRuns : List (Nat × Int) → List Int
  | [] => []
  | (n, v) :: rest => List.replicate n v ++ expandRuns rest

/-- Total of the run lengths. -/
def runLengthSum (rs : List (Nat × Int)) : Nat :=
  (rs.map Prod.fst).sum

theorem expandRuns_rleRunsGo (l : List Int) :
    ∀ (cur : Int) (count : Nat),
      expandRuns (rleRunsGo cur count l) = List.replicate count cur ++ l := by
  induction l with
  | nil => intro cur count; simp [rleRunsGo, expandRuns]
  | cons b rest ih =>
    intro cur count
    unfold rleRunsGo
    split
    · next hb =>
      rw [ih cur (count + 1), List.replicate_succ' count cur]
      simp [hb]
    · next hb =>
      rw [expandRuns, ih b 1]
      simp

/-- Expanding the runs of `rle_encode`'s scan reproduces the flattened grid. -/
theorem expandRuns_rleRuns (l : List Int) : expandRuns (rleRuns l) = l := by
  cases l with
  | nil => rfl
  | cons b rest =>
    rw [rleRuns, expandRuns_rleRunsGo]
    simp

theorem length_expandRuns (rs : List (Nat × Int)) :
    (expandRuns rs).length = runLengthSum rs := by
  induction rs with
  | nil => rfl
  | cons r rest ih =>
    obtain ⟨n, v⟩ := r
    rw [expandRuns, List.length_append, List.length_replicate, ih]
    rfl

theorem runLengthSum_rleRuns (l : List Int) :
    runLengthSum (rleRuns l) = l.length := by
  rw [← length_expandRuns, expandRuns_rleRuns]

theorem rleRunsGo_count_pos (l : List Int) :
    ∀ (cur : Int) (count : Nat), 0 < count →
      ∀ r ∈ rleRunsGo cur count l, 0 < r.1 := by
  induction l with
  | nil =>
    intro cur count hc r hr
    simp [rleRunsGo] at hr
    simp [hr, hc]
  | cons b rest ih =>
    intro cur count hc r hr
    unfold rleRunsGo at hr
    split at hr
    · exact ih cur (count + 1) (Nat.succ_pos count) r hr
    · rcases List.mem_cons.mp hr with h | h
      · simp [h, hc]
      · exact ih b 1 Nat.one_pos r h

/-- C10. For every non-empty rectangular `h × w` grid: `rle_encode` is the
comma-join of the rendered runs of its row-major cell sequence; every run has
positive length; the run lengths sum to `w * h`; and expanding the runs in
order reproduces the row-major cells exactly. -/
theorem c10_rle_encode_roundtrip (grid : List (List Int)) (w h : Nat)
    (hh : grid.length = h) (hw : ∀ row ∈ grid, row.length = w)
    (hwpos : 0 < w) (hhpos : 0 < h) :
    rle_encode grid =
        String.intercalate "," ((rleRuns grid.flatten).map renderRun) ∧
      (∀ r ∈ rleRuns grid.flatten, 0 < r.1) ∧
      runLengthSum (rleRuns grid.flatten) = w * h ∧
      expandRuns (rleRuns grid.flatten) = grid.flatten := by
  have hlen : grid.flatten.length = w * h := by
    rw [List.length_flatten]
    have hmap : grid.map List.length = List.replicate h w := by
      refine List.eq_replicate_iff.mpr ⟨by simp [hh], ?_⟩
      intro x hx
      obtain ⟨row, hrow, rfl⟩ := List.mem_map.mp hx
      exact hw row hrow
    rw [hmap, List.sum_replicate, smul_eq_mul, Nat.mul_comm]
  have hne : grid.flatten ≠ [] := by
    intro hnil
    rw [hnil] at hlen
    simp at hlen
    omega
  refine ⟨?_, ?_, ?_, expandRuns_rleRuns _⟩
  · unfold rle_encode
    cases hfl : grid.flatten with
    | nil => exact absurd hfl hne
    | cons b rest => rw [rleRuns]
  · cases hfl : grid.flatten with
    | nil => exact absurd hfl hne
    | cons b rest =>
      rw [rleRuns]
      exact rleRunsGo_count_pos rest b 1 Nat.one_pos
  · rw [runLengthSum_rleRuns, hlen]

/-! ## The scoped broadcast router (`minigame_broadcast_override`)

From `Zombies.py` (lines 672–706); `FreeForAll.py` lines 544–560 carry the
same logic. The server transport (`server_api`) is external to the plugins
(spec §6); its identity/connection resolution is modelled as a list of
`(username, websocket)` pairs. -/

/-- The external connection table: `get_websocket_from_username`,
`get_username_from_websocket` and `get_connected_clients` all read it. -/
structure ServerConn where
  clients : List (String × Nat)

/-- `server_api.get_websocket_from_username(u)`. -/
def getWebsocketFromUsername (conn : ServerConn) (u : String) : Option Nat :=
  lookupA conn.clients u

/-- `server_api.get_username_from_websocket(w)`. -/
def getUsernameFromWebsocket : List (String × Nat) → Nat → Option String
  | [], _ => none
  | e :: rest, w => if e.2 = w then some e.1 else getUsernameFromWebsocket rest w

/-- `server_api.get_connected_clients()`. -/
def getConnectedClients (conn : ServerConn) : List Nat :=
  conn.clients.map (·.2)

/-- Python `s.endswith(post)`, computed on the character lists. -/
def strEndsWith (s post : String) : Bool :=
  List.isSuffixOf post.data s.data

/-- Sender identification step of `minigame_broadcast_override`:
`parts = message.split('|')`, `msg_type = parts[0]`; `PLAYER_INFO`-suffixed
first fields and `PLAYER_MESSAGE` frames name their own subject, otherwise
the excluded websocket's username is used (`None` when there is none).
`Except.error` models the uncaught `IndexError` on a `PLAYER_MESSAGE` frame
with fewer than three fields, which the surrounding `try` swallows. -/
def extractSender (conn : ServerConn) (parts : List String)
    (excludeWs : Option Nat) : Except Unit (Option String) :=
  let msgType := parts.headD ""
  if msgType = "PLAYER_INFO" ∨ strEndsWith msgType "PLAYER_INFO" then
    Except.ok (some msgType)
  else if msgType = "PLAYER_MESSAGE" then
    match parts.get? 2 with
    | some s => Except.ok (some s)
    | none => Except.error ()
  else
    match excludeWs with
    | some w => Except.ok (getUsernameFromWebsocket conn.clients w)
    | none => Except.ok none

/-- `player_to_game.get(sender_username)` where `sender_username` may be
Python `None` (never a dict key). -/
def directoryGet (d : List (String × Nat)) : Option String → Option Nat
  | none => none
  | some u => lookupA d u

/-- `active_games.get(gid)`, keeping only each instance's roster. -/
def lookupRoster : List (Nat × List String) → Nat → Option (List String)
  | [], _ => none
  | e :: rest, i => if e.1 = i then some e.2 else lookupRoster rest i

/-- The recipient websockets computed by `minigame_broadcast_override`:
a resolved in-game sender routes to its instance's roster
(`targets = [ws(p) for p in game.players if ws(p) != exclude]`, `None`
entries dropped by `if ws`); otherwise the main-world population
(connected sockets whose username is not a directory key, excluding
`exclude_websocket`). An unresolvable sender (`None`) falls into the
main-world branch since `player_to_game.get(None)` is `None`. -/
def routeForSender (conn : ServerConn) (player_to_game : List (String × Nat))
    (active_games : List (Nat × List String)) (excludeWs : Option Nat)
    (senderU : Option String) : List Nat :=
  match directoryGet player_to_game senderU with
  | some gid =>
    match lookupRoster active_games gid with
    | some roster =>
      ((roster.map (getWebsocketFromUsername conn)).filter
        (fun o => o ≠ excludeWs)).filterMap id
    | none => []
  | none =>
    (getConnectedClients conn).filter (fun w =>
      (match getUsernameFromWebsocket conn.clients w with
       | some u => ! memA player_to_game u
       | none => true) && decide (¬ some w = excludeWs))

def minigame_broadcast_override (conn : ServerConn)
    (player_to_game : List (String × Nat))
    (active_games : List (Nat × List String))
    (parts : List String) (excludeWs : Option Nat) : List Nat :=
  match extractSender conn parts excludeWs with
  | Except.error _ => []
  | Except.ok senderU =>
    routeForSender conn player_to_game active_games excludeWs senderU

/-- C1. With the override installed, a message whose identification step
resolves sender `s`: if `s` has a directory entry naming a live instance, the
recipients are exactly the connection handles of that instance's roster minus
the excluded handle (so nothing outside that roster is reached); if the
resolved sender (including the unresolvable `none`) has no directory entry,
the recipients are exactly the connected handles whose identity has no
directory entry, minus the excluded handle (so no in-session participant is
reached). -/
theorem c1_broadcast_override_scoping (conn : ServerConn)
    (ptg : List (String × Nat)) (ag : List (Nat × List String))
    (parts : List String) (excludeWs : Option Nat) (senderU : Option String)
    (hs : extractSender conn parts excludeWs = Except.ok senderU) :
    (∀ gid roster, directoryGet ptg senderU = some gid →
      lookupRoster ag gid = some roster →
      ∀ w, w ∈ minigame_broadcast_override conn ptg ag parts excludeWs ↔
        (∃ p ∈ roster, getWebsocketFromUsername conn p = some w) ∧
          some w ≠ excludeWs) ∧
    (directoryGet ptg senderU = none →
      ∀ w, w ∈ minigame_broadcast_override conn ptg ag parts excludeWs ↔
        w ∈ getConnectedClients conn ∧
          (∀ u, getUsernameFromWebsocket conn.clients w = some u →
            ¬ memA ptg u) ∧
          some w ≠ excludeWs) := by
  have hov : minigame_broadcast_override conn ptg ag parts excludeWs =
      routeForSender conn ptg ag excludeWs senderU := by
    unfold minigame_broadcast_override
    rw [hs]
  constructor
  · intro gid roster hgid hroster w
    rw [hov]
    unfold routeForSender
    simp only [hgid, hroster]
    simp only [List.mem_filterMap, List.mem_filter, List.mem_map, id_eq,
      decide_eq_true_eq]
    constructor
    · rintro ⟨o, ⟨⟨p, hp, hpw⟩, hne⟩, ho⟩
      rw [ho] at hpw hne
      exact ⟨⟨p, hp, hpw⟩, hne⟩
    · rintro ⟨⟨p, hp, hpw⟩, hne⟩
      exact ⟨some w, ⟨⟨p, hp, hpw⟩, hne⟩, rfl⟩
  · intro hnone w
    rw [hov]
    unfold routeForSender
    simp only [hnone]
    simp only [List.mem_filter, Bool.and_eq_true, decide_eq_true_eq]
    constructor
    · rintro ⟨hw, hcond, hne⟩
      refine ⟨hw, ?_, hne⟩
      intro u hu
      rw [hu] at hcond
      simpa using hcond
    · rintro ⟨hw, hcond, hne⟩
      refine ⟨hw, ?_, hne⟩
      cases hres : getUsernameFromWebsocket conn.clients w with
      | none => rfl
      | some u => simpa using hcond u hres

/-- Witness for C1: two live instances A (roster x, y) and B (roster z), one
unscoped identity w. A chat frame attributed to x reaches y only; a frame
attributed to w reaches w only (here: excluding the originator's own socket
reduces those sets accordingly). -/
theorem c1_broadcast_override_scoping_witness :
    extractSender ⟨[("x", 1), ("y", 2), ("z", 3), ("w", 4)]⟩
        ["PLAYER_MESSAGE", "PLACERCLIENT", "x", "hi"] none =
      Except.ok (some "x") ∧
    (∀ v, v ∈ minigame_broadcast_override
        ⟨[("x", 1), ("y", 2), ("z", 3), ("w", 4)]⟩
        [("x", 10), ("y", 10), ("z", 11)] [(10, ["x", "y"]), (11, ["z"])]
        ["PLAYER_MESSAGE", "PLACERCLIENT", "x", "hi"] none ↔
      (∃ p ∈ ["x", "y"],
        getWebsocketFromUsername ⟨[("x", 1), ("y", 2), ("z", 3), ("w", 4)]⟩ p
          = some v) ∧ some v ≠ none) := by
  have hs : extractSender ⟨[("x", 1), ("y", 2), ("z", 3), ("w", 4)]⟩
      ["PLAYER_MESSAGE", "PLACERCLIENT", "x", "hi"] none =
      Except.ok (some "x") := by rfl
  refine ⟨hs, ?_⟩
  exact (c1_broadcast_override_scoping ⟨[("x", 1), ("y", 2), ("z", 3), ("w", 4)]⟩
    [("x", 10), ("y", 10), ("z", 11)] [(10, ["x", "y"]), (11, ["z"])]
    ["PLAYER_MESSAGE", "PLACERCLIENT", "x", "hi"] none (some "x") hs).1
    10 ["x", "y"] (by decide) (by decide)

/-! ## Instance lifecycle and session registry

From `Zombies.py`: the `GameInstance` class, the join logic of `on_message`
(DAMAGE on the join NPC, lines 849–866), `remove_player`, `end_game` and
`_end_game_task`. Each function below is the net effect of one handler
invocation running to completion with no other task interleaved, which is
how the sequential scenarios (a single join, a single leave, a teardown
firing) execute; executions in which several in-flight handlers interleave
at their suspension points are modelled separately below (the segment
machine used for C2 and C3). The asynchronous countdown task's first
statement (`self.game_state = "countdown"`) and the `CancelledError`
handler's reversal to `"waiting"` are folded into the invocation that
spawns/cancels the task; the countdown task body itself is modelled in
full as `countdownRun` below. -/

inductive GState where
  | waiting
  | countdown
  | playing
  | ended
deriving DecidableEq, Repr

/-- Per-instance game configuration (`config.json` keys used by the
lifecycle logic; `DEFAULT_CONFIG` of `Zombies.py` / `FreeForAll.py`). -/
structure GameConfig where
  min_players : Nat
  max_players : Nat
  countdown_normal : Nat
  countdown_full : Nat
deriving DecidableEq, Repr

/-- `DEFAULT_CONFIG` of `Zombies.py` (lifecycle keys). -/
def zombiesDefaultConfig : GameConfig :=
  { min_players := 2, max_players := 8, countdown_normal := 40,
    countdown_full := 10 }

/-- `DEFAULT_CONFIG` of `FreeForAll.py` (lifecycle keys). -/
def ffaDefaultConfig : GameConfig :=
  { min_players := 2, max_players := 8, countdown_normal := 30,
    countdown_full := 10 }

/-- The lifecycle state of one `GameInstance` of `Zombies.py`. -/
structure GameInstance where
  game_id : Nat
  game_state : GState
  players : List String
  lobby_players : List String
  in_game_players : List String
deriving DecidableEq, Repr

/-- `GameInstance.__init__`. -/
def newGameInstance (gid : Nat) : GameInstance :=
  { game_id := gid, game_state := GState.waiting, players := [],
    lobby_players := [], in_game_players := [] }

/-- An outbound side effect: a direct `send_to_client`, a gather over the
main-world sockets, or a `broadcast_to_game_players` over a roster.
Delivery itself is the external MessageBus (spec §6). -/
inductive Send where
  | toUser (u : String) (msg : String)
  | toMainWorld (msg : String)
  | toRoster (roster : List String) (msg : String)
deriving DecidableEq, Repr

/-- `GameInstance.add_player` (Zombies lines 421–444): reject with a direct
notice unless the state is waiting/countdown and the roster is below
`max_players`; otherwise despawn the joiner for the main world, add it to
`players`/`lobby_players`, claim the directory entry, teleport it into the
lobby world, announce the join, and (when the minimum is reached while
waiting, or the roster is exactly full) start the countdown task, whose
first statement sets `game_state` to countdown. Returns the updated
instance, the updated `player_to_game` directory, and the sends. -/
def add_player (cfg : GameConfig) (u : String) (g : GameInstance)
    (d : List (String × Nat)) :
    GameInstance × List (String × Nat) × List Send :=
  if ¬ (g.game_state = GState.waiting ∨ g.game_state = GState.countdown) then
    (g, d, [Send.toUser u "TELLRAW|PLACERSERVER|This game has already started."])
  else if cfg.max_players ≤ g.players.length then
    (g, d, [Send.toUser u "TELLRAW|PLACERSERVER|This game is full."])
  else
    let g1 := { g with players := insertUniq g.players u,
                       lobby_players := insertUniq g.lobby_players u }
    let d1 := setA d u g.game_id
    let g2 := if (cfg.min_players ≤ g1.players.length ∧
                    g.game_state = GState.waiting) ∨
                 g1.players.length = cfg.max_players
              then { g1 with game_state := GState.countdown } else g1
    (g2, d1,
      [Send.toMainWorld (u ++ "|-999|-999|Default|0|0|PLAYER_INFO"),
       Send.toUser u "WORLD_DATA|PLACERSERVER|<lobby world json>",
       Send.toUser u ("SET_POSITION|PLACERSERVER|2420|2744|" ++ u),
       Send.toRoster g1.players
         ("TELLRAW|PLACERSERVER|" ++ u ++ " joined!")])

/-- The registry shared by all instances of one plugin: `active_games` (in
registration order, as Python dict insertion order), `player_to_game`,
`next_game_id` and whether `set_broadcast_override` is currently installed. -/
structure Registry where
  active_games : List (Nat × GameInstance)
  player_to_game : List (String × Nat)
  next_game_id : Nat
  overrideInstalled : Bool
deriving DecidableEq, Repr

/-- The empty initial registry (module load). -/
def initialRegistry : Registry :=
  { active_games := [], player_to_game := [], next_game_id := 0,
    overrideInstalled := false }

def lookupG : List (Nat × GameInstance) → Nat → Option GameInstance
  | [], _ => none
  | e :: rest, k => if e.1 = k then some e.2 else lookupG rest k

/-- Replace the stored instance for `k` in place (mutation of the object
held in the `active_games` dict). -/
def updateG : List (Nat × GameInstance) → Nat → GameInstance →
    List (Nat × GameInstance)
  | [], _, _ => []
  | e :: rest, k, v => if e.1 = k then (k, v) :: rest else e :: updateG rest k v

/-- `del active_games[k]` (guarded, so total). -/
def delG (l : List (Nat × GameInstance)) (k : Nat) : List (Nat × GameInstance) :=
  l.filter (fun e => ¬ e.1 = k)

/-- The find loop of the join handler: first registered instance in state
waiting/countdown whose roster is below `max_players`. -/
def findJoinableGame (cfg : GameConfig) :
    List (Nat × GameInstance) → Option (Nat × GameInstance)
  | [] => none
  | e :: rest =>
    if (e.2.game_state = GState.waiting ∨ e.2.game_state = GState.countdown)
        ∧ e.2.players.length < cfg.max_players
    then some e else findJoinableGame cfg rest

/-- The join-NPC click handler (Zombies `on_message`, lines 849–866): an
identity already in `player_to_game` is a no-op; otherwise find an open
instance or create one (installing the broadcast override when no instance
was live), then `add_player`. -/
def joinClick (cfg : GameConfig) (u : String) (r : Registry) :
    Registry × List Send :=
  if memA r.player_to_game u then (r, [])
  else
    match findJoinableGame cfg r.active_games with
    | some (gid, g) =>
      let res := add_player cfg u g r.player_to_game
      ({ r with active_games := updateG r.active_games gid res.1,
                player_to_game := res.2.1 }, res.2.2)
    | none =>
      let gid := r.next_game_id
      let ov := r.overrideInstalled || r.active_games.isEmpty
      let res := add_player cfg u (newGameInstance gid) r.player_to_game
      ({ active_games := r.active_games ++ [(gid, res.1)],
         player_to_game := res.2.1,
         next_game_id := gid + 1,
         overrideInstalled := ov }, res.2.2)

/-- `GameInstance.end_game` (Zombies lines 579–582): a no-op once
`game_state` is already ended, otherwise set it and spawn `_end_game_task`
(the returned flag records whether the task was spawned). -/
def end_game (g : GameInstance) : GameInstance × Bool :=
  if g.game_state = GState.ended then (g, false)
  else ({ g with game_state := GState.ended }, true)

/-- `GameInstance.remove_player` (Zombies lines 645–655): discard the
identity from all three rosters, release its directory entry, announce the
leave; if a countdown is running and the roster dropped below the minimum,
cancel the countdown task (whose `CancelledError` handler restores
`game_state = "waiting"`); if the roster is empty and the instance is not
already ended, trigger `end_game`. -/
def remove_player (cfg : GameConfig) (u : String) (g : GameInstance)
    (d : List (String × Nat)) :
    GameInstance × List (String × Nat) × List Send :=
  let g1 := { g with players := discardS g.players u,
                     lobby_players := discardS g.lobby_players u,
                     in_game_players := discardS g.in_game_players u }
  let d1 := delA d u
  let sends := [Send.toRoster g1.players (u ++ "|-999|-999|Default|0|0|PLAYER_INFO"),
                Send.toRoster g1.players ("TELLRAW|PLACERSERVER|" ++ u ++ " left the game.")]
  let g2 := if g1.game_state = GState.countdown ∧
               g1.players.length < cfg.min_players
            then { g1 with game_state := GState.waiting } else g1
  if g2.players = [] ∧ ¬ g2.game_state = GState.ended then
    ((end_game g2).1, d1, sends)
  else (g2, d1, sends)

/-- The disconnect/leave path (`on_disconnect`): resolve the identity's
instance through the directory and `remove_player` it there. -/
def leaveReg (cfg : GameConfig) (u : String) (r : Registry) :
    Registry × List Send :=
  match lookupA r.player_to_game u with
  | none => (r, [])
  | some gid =>
    match lookupG r.active_games gid with
    | none => (r, [])
    | some g =>
      let res := remove_player cfg u g r.player_to_game
      ({ r with active_games := updateG r.active_games gid res.1,
                player_to_game := res.2.1 }, res.2.2)

/-- An `end_game` trigger reaching instance `gid` from inside its own game
loop (core destroyed, rounds exhausted, roster empty). -/
def endGameStep (gid : Nat) (r : Registry) : Registry :=
  match lookupG r.active_games gid with
  | none => r
  | some g => { r with active_games := updateG r.active_games gid (end_game g).1 }

/-- `GameInstance._end_game_task` (Zombies lines 584–628), state effects:
release every roster member's directory entry and teleport it back to the
main world, clear the rosters, unregister the instance, and clear the
broadcast override when no instance remains live. Runs only for an
instance whose `end_game` already set `game_state = "ended"`. -/
def endGameTeardown (g : GameInstance) (r : Registry) : Registry × List Send :=
  let d1 := g.players.foldl (fun d u => delA d u) r.player_to_game
  let ag1 := delG r.active_games g.game_id
  ({ r with active_games := ag1, player_to_game := d1,
            overrideInstalled := if ag1 = [] then false else r.overrideInstalled },
   [Send.toRoster g.players "HIDE_IMAGE|PLACERSERVER|",
    Send.toRoster g.players "SHOW_IMAGE|PLACERSERVER|<outcome image>"] ++
     g.players.map (fun u => Send.toUser u "WORLD_DATA|PLACERSERVER|<main world>"))

/-- The teardown task firing for instance `gid`: a no-op unless the instance
is still registered and was put in the ended state by `end_game`. -/
def teardownStep (gid : Nat) (r : Registry) : Registry × List Send :=
  match lookupG r.active_games gid with
  | none => (r, [])
  | some g =>
    if g.game_state = GState.ended then endGameTeardown g r else (r, [])

/-! ### Dictionary bookkeeping lemmas -/

theorem lookupG_eq_some_mem {l : List (Nat × GameInstance)} {k : Nat}
    {g : GameInstance} (h : lookupG l k = some g) : (k, g) ∈ l := by
  induction l with
  | nil => simp [lookupG] at h
  | cons e rest ih =>
    rw [lookupG] at h
    split at h
    · next he =>
      injection h with h2
      rw [← h2, ← he, Prod.mk.eta]
      exact List.mem_cons_self e rest
    · right
      exact ih h

theorem lookupG_eq_none_of_not_mem {l : List (Nat × GameInstance)} {k : Nat}
    (h : k ∉ l.map Prod.fst) : lookupG l k = none := by
  induction l with
  | nil => rfl
  | cons e rest ih =>
    rw [lookupG, if_neg, ih]
    · intro hm; exact h (by simp [hm])
    · intro he; exact h (by simp [he])

theorem mem_keys_of_lookupG {l : List (Nat × GameInstance)} {k : Nat}
    {g : GameInstance} (h : lookupG l k = some g) : k ∈ l.map Prod.fst := by
  by_contra hk
  rw [lookupG_eq_none_of_not_mem hk] at h
  exact Option.noConfusion h

theorem lookupG_of_mem_nodup {l : List (Nat × GameInstance)} {k : Nat}
    {g : GameInstance} (hn : (l.map Prod.fst).Nodup) (h : (k, g) ∈ l) :
    lookupG l k = some g := by
  induction l with
  | nil => simp at h
  | cons e rest ih =>
    rw [List.map_cons, List.nodup_cons] at hn
    rcases List.mem_cons.mp h with h1 | h1
    · rw [← h1, lookupG, if_pos rfl]
    · rw [lookupG]
      split
      · next he =>
        exfalso
        exact hn.1 (he ▸ (List.mem_map.mpr ⟨(k, g), h1, rfl⟩))
      · exact ih hn.2 h1

theorem updateG_keys (l : List (Nat × GameInstance)) (k : Nat)
    (v : GameInstance) : (updateG l k v).map Prod.fst = l.map Prod.fst := by
  induction l with
  | nil => rfl
  | cons e rest ih =>
    rw [updateG]
    split
    · next he => simp [he]
    · simp [ih]

theorem mem_updateG {l : List (Nat × GameInstance)} {k : Nat}
    {v : GameInstance} {e : Nat × GameInstance}
    (hn : (l.map Prod.fst).Nodup) (h : e ∈ updateG l k v) :
    e = (k, v) ∨ (e ∈ l ∧ ¬ e.1 = k) := by
  induction l with
  | nil => simp [updateG] at h
  | cons a rest ih =>
    rw [List.map_cons, List.nodup_cons] at hn
    rw [updateG] at h
    split at h
    · next ha =>
      rcases List.mem_cons.mp h with h1 | h1
      · exact Or.inl h1
      · refine Or.inr ⟨List.mem_cons_of_mem a h1, ?_⟩
        intro hek
        exact hn.1 (ha ▸ hek ▸ (List.mem_map.mpr ⟨e, h1, rfl⟩))
    · next ha =>
      rcases List.mem_cons.mp h with h1 | h1
      · refine Or.inr ⟨h1 ▸ List.mem_cons_self a rest, ?_⟩
        rw [h1]
        exact ha
      · rcases ih hn.2 h1 with h2 | h2
        · exact Or.inl h2
        · exact Or.inr ⟨List.mem_cons_of_mem a h2.1, h2.2⟩

theorem mem_updateG_of_mem_ne {l : List (Nat × GameInstance)} {k : Nat}
    {v : GameInstance} {e : Nat × GameInstance} (h : e ∈ l)
    (hne : ¬ e.1 = k) : e ∈ updateG l k v := by
  induction l with
  | nil => simp at h
  | cons a rest ih =>
    rw [updateG]
    rcases List.mem_cons.mp h with h1 | h1
    · split
      · next ha =>
        exfalso
        rw [h1] at hne
        exact hne ha
      · rw [h1]
        exact List.mem_cons_self a _
    · split
      · exact List.mem_cons_of_mem _ h1
      · exact List.mem_cons_of_mem a (ih h1)

theorem lookupG_updateG_self {l : List (Nat × GameInstance)} {k : Nat}
    {g : GameInstance} (v : GameInstance) (h : lookupG l k = some g) :
    lookupG (updateG l k v) k = some v := by
  induction l with
  | nil => simp [lookupG] at h
  | cons e rest ih =>
    rw [lookupG] at h
    rw [updateG]
    split at h
    · next he => rw [if_pos he, lookupG, if_pos rfl]
    · next he => rw [if_neg he, lookupG, if_neg he]; exact ih h

theorem lookupG_updateG_ne {l : List (Nat × GameInstance)} {k k' : Nat}
    (v : GameInstance) (h : ¬ k' = k) :
    lookupG (updateG l k v) k' = lookupG l k' := by
  induction l with
  | nil => rfl
  | cons e rest ih =>
    rw [updateG]
    split
    · next he =>
      rw [lookupG, lookupG]
      rw [if_neg (fun hc : (k, v).1 = k' => h (by simpa using hc.symm))]
      rw [if_neg (fun hc : e.1 = k' => h (by rw [← hc]; exact he))]
    · rw [lookupG, lookupG, ih]

theorem updateG_mem_same {l : List (Nat × GameInstance)} {k : Nat}
    {g : GameInstance} (hn : (l.map Prod.fst).Nodup) (h : (k, g) ∈ l) :
    updateG l k g = l := by
  induction l with
  | nil => rfl
  | cons e rest ih =>
    rw [List.map_cons, List.nodup_cons] at hn
    rw [updateG]
    rcases List.mem_cons.mp h with h1 | h1
    · rw [if_pos (by rw [← h1]), ← h1]
    · split
      · next he =>
        exfalso
        exact hn.1 (he ▸ (List.mem_map.mpr ⟨(k, g), h1, rfl⟩))
      · rw [ih hn.2 h1]

theorem mem_delG {l : List (Nat × GameInstance)} {k : Nat}
    {e : Nat × GameInstance} : e ∈ delG l k ↔ e ∈ l ∧ ¬ e.1 = k := by
  simp [delG]

theorem delG_keys_sublist (l : List (Nat × GameInstance)) (k : Nat) :
    ((delG l k).map Prod.fst).Sublist (l.map Prod.fst) :=
  (List.filter_sublist l).map Prod.fst

theorem lookupG_delG_self (l : List (Nat × GameInstance)) (k : Nat) :
    lookupG (delG l k) k = none := by
  apply lookupG_eq_none_of_not_mem
  intro h
  obtain ⟨e, he, hek⟩ := List.mem_map.mp h
  exact (mem_delG.mp he).2 hek

theorem lookupG_delG_ne (l : List (Nat × GameInstance)) (k k' : Nat)
    (h : ¬ k' = k) : lookupG (delG l k) k' = lookupG l k' := by
  induction l with
  | nil => rfl
  | cons e rest ih =>
    by_cases hk : e.1 = k
    · rw [delG, List.filter_cons_of_neg (by simp [hk])]
      rw [delG] at ih
      rw [ih, lookupG, if_neg (fun hc : e.1 = k' => h (by rw [← hc]; exact hk))]
    · rw [delG, List.filter_cons_of_pos (by simp [hk])]
      rw [delG] at ih
      rw [lookupG, lookupG, ih]

theorem lookupG_append_left {l l2 : List (Nat × GameInstance)} {k : Nat}
    {g : GameInstance} (h : lookupG l k = some g) :
    lookupG (l ++ l2) k = some g := by
  induction l with
  | nil => simp [lookupG] at h
  | cons e rest ih =>
    rw [lookupG] at h
    rw [List.cons_append, lookupG]
    split at h
    · next he => rw [if_pos he]; exact h
    · next he => rw [if_neg he]; exact ih h

theorem lookupG_append_right {l l2 : List (Nat × GameInstance)} {k : Nat}
    (h : lookupG l k = none) : lookupG (l ++ l2) k = lookupG l2 k := by
  induction l with
  | nil => rfl
  | cons e rest ih =>
    rw [lookupG] at h
    rw [List.cons_append, lookupG]
    split at h
    · exact Option.noConfusion h
    · next he => rw [if_neg he]; exact ih h

theorem setA_keys_nodup {d : List (String × Nat)} {k : String} (v : Nat)
    (hn : (d.map Prod.fst).Nodup) : ((setA d k v).map Prod.fst).Nodup := by
  rw [setA, List.map_cons, List.nodup_cons]
  constructor
  · intro h
    obtain ⟨e, he, hek⟩ := List.mem_map.mp h
    have := (List.mem_filter.mp he).2
    rw [hek] at this
    simp at this
  · exact ((List.filter_sublist d).map Prod.fst).nodup hn

theorem delA_keys_nodup {d : List (String × Nat)} {k : String}
    (hn : (d.map Prod.fst).Nodup) : ((delA d k).map Prod.fst).Nodup :=
  ((List.filter_sublist d).map Prod.fst).nodup hn

theorem memA_eq_false_iff {d : List (String × Nat)} {k : String} :
    memA d k = false ↔ lookupA d k = none := by
  unfold memA
  cases lookupA d k with
  | none => simp
  | some v => simp

theorem lookupA_foldl_delA (us : List String) (d : List (String × Nat))
    (x : String) :
    lookupA (us.foldl (fun d u => delA d u) d) x =
      if x ∈ us then none else lookupA d x := by
  induction us generalizing d with
  | nil => simp
  | cons u rest ih =>
    rw [List.foldl_cons, ih]
    by_cases hx : x ∈ rest
    · rw [if_pos hx, if_pos (List.mem_cons_of_mem u hx)]
    · rw [if_neg hx]
      by_cases hxu : x = u
      · rw [if_pos (by rw [hxu]; exact List.mem_cons_self u rest), hxu,
          lookupA_delA_self]
      · have hxm : x ∉ u :: rest := by
          intro hmem
          rcases List.mem_cons.mp hmem with h1 | h1
          · exact hxu h1
          · exact hx h1
        rw [if_neg hxm, lookupA_delA_ne _ _ _ hxu]

theorem foldl_delA_keys_nodup (us : List String) (d : List (String × Nat))
    (hn : (d.map Prod.fst).Nodup) :
    (((us.foldl (fun d u => delA d u) d)).map Prod.fst).Nodup := by
  induction us generalizing d with
  | nil => exact hn
  | cons u rest ih => exact ih _ (delA_keys_nodup hn)

theorem findJoinableGame_spec {cfg : GameConfig}
    {l : List (Nat × GameInstance)} {e : Nat × GameInstance}
    (h : findJoinableGame cfg l = some e) :
    e ∈ l ∧ (e.2.game_state = GState.waiting ∨
      e.2.game_state = GState.countdown) ∧
      e.2.players.length < cfg.max_players := by
  induction l with
  | nil => simp [findJoinableGame] at h
  | cons a rest ih =>
    rw [findJoinableGame] at h
    split at h
    · next ha =>
      injection h with h2
      rw [← h2]
      exact ⟨List.mem_cons_self a rest, ha.1, ha.2⟩
    · obtain ⟨h1, h2⟩ := ih h
      exact ⟨List.mem_cons_of_mem a h1, h2⟩

/-- Case analysis on `add_player`: either the join is rejected (wrong state
or full) and nothing but a direct notice happens, or it is accepted and the
roster and directory are extended together. -/
theorem add_player_cases (cfg : GameConfig) (u : String) (g : GameInstance)
    (d : List (String × Nat)) :
    (¬ ((g.game_state = GState.waiting ∨ g.game_state = GState.countdown) ∧
          g.players.length < cfg.max_players) ∧
        (add_player cfg u g d).1 = g ∧ (add_player cfg u g d).2.1 = d ∧
        ∃ m, (add_player cfg u g d).2.2 = [Send.toUser u m]) ∨
    (((g.game_state = GState.waiting ∨ g.game_state = GState.countdown) ∧
          g.players.length < cfg.max_players) ∧
        (add_player cfg u g d).1.players = insertUniq g.players u ∧
        (add_player cfg u g d).1.game_id = g.game_id ∧
        (add_player cfg u g d).2.1 = setA d u g.game_id) := by
  unfold add_player
  by_cases hst : g.game_state = GState.waiting ∨ g.game_state = GState.countdown
  · rw [if_neg (not_not_intro hst)]
    by_cases hc : cfg.max_players ≤ g.players.length
    · rw [if_pos hc]
      exact Or.inl ⟨by omega, rfl, rfl, _, rfl⟩
    · rw [if_neg hc]
      refine Or.inr ⟨⟨hst, by omega⟩, ?_, ?_, rfl⟩
      · dsimp only
        split <;> rfl
      · dsimp only
        split <;> rfl
  · rw [if_pos hst]
    exact Or.inl ⟨fun hcon => hst hcon.1, rfl, rfl, _, rfl⟩

/-- `remove_player` discards the identity from the roster, keeps the
instance id, and releases exactly its directory entry. -/
theorem remove_player_effects (cfg : GameConfig) (u : String)
    (g : GameInstance) (d : List (String × Nat)) :
    (remove_player cfg u g d).1.players = discardS g.players u ∧
    (remove_player cfg u g d).1.game_id = g.game_id ∧
    (remove_player cfg u g d).2.1 = delA d u := by
  unfold remove_player end_game
  dsimp only
  refine ⟨?_, ?_, ?_⟩ <;> (repeat' split) <;> rfl

theorem end_game_players (g : GameInstance) :
    (end_game g).1.players = g.players ∧ (end_game g).1.game_id = g.game_id := by
  unfold end_game
  split <;> exact ⟨rfl, rfl⟩

theorem lookupG_det {l : List (Nat × GameInstance)} {k : Nat}
    {g g' : GameInstance} (h1 : lookupG l k = some g)
    (h2 : lookupG l k = some g') : g = g' := by
  rw [h1] at h2
  injection h2

/-- C7. Teardown is reentry-safe: a second `end_game` on an instance already
put in the ended state leaves it unchanged and spawns no second
`_end_game_task` (so outcome notifications and cleanup run once), a first
`end_game` on a non-ended instance does spawn the task, and running the
registry-level teardown twice equals running it once (the second run finds
the instance unregistered, or nothing to do, and is a no-op). -/
theorem c7_teardown_idempotent (g : GameInstance) (gid : Nat) (r : Registry)
    (hid : ∀ e ∈ r.active_games, e.2.game_id = e.1) :
    (end_game (end_game g).1).1 = (end_game g).1 ∧
    (end_game (end_game g).1).2 = false ∧
    (¬ g.game_state = GState.ended → (end_game g).2 = true) ∧
    teardownStep gid (teardownStep gid r).1 = ((teardownStep gid r).1, []) := by
  have hofended : ∀ x : GameInstance, x.game_state = GState.ended →
      end_game x = (x, false) := by
    intro x h
    unfold end_game
    rw [if_pos h]
  have hstate : (end_game g).1.game_state = GState.ended := by
    unfold end_game
    split
    · next h => exact h
    · rfl
  refine ⟨?_, ?_, ?_, ?_⟩
  · rw [hofended _ hstate]
  · rw [hofended _ hstate]
  · intro h
    unfold end_game
    rw [if_neg h]
  · cases hg : lookupG r.active_games gid with
    | none =>
      have hfst : (teardownStep gid r).1 = r := by
        simp only [teardownStep, hg]
      have hall : teardownStep gid r = (r, []) := by
        simp only [teardownStep, hg]
      rw [hfst, hall]
    | some g2 =>
      by_cases hended : g2.game_state = GState.ended
      · have hgid : g2.game_id = gid :=
          hid (gid, g2) (lookupG_eq_some_mem hg)
        have hfst : (teardownStep gid r).1 = (endGameTeardown g2 r).1 := by
          simp only [teardownStep, hg, if_pos hended]
        have hlook2 : lookupG (endGameTeardown g2 r).1.active_games gid = none := by
          unfold endGameTeardown
          dsimp only
          rw [← hgid]
          exact lookupG_delG_self _ _
        rw [hfst]
        simp only [teardownStep, hlook2]
      · have hfst : (teardownStep gid r).1 = r := by
          simp only [teardownStep, hg, if_neg hended]
        have hall : teardownStep gid r = (r, []) := by
          simp only [teardownStep, hg, if_neg hended]
        rw [hfst, hall]

/-- A concrete mid-round instance, used by the C7 witness. -/
def playingInstance : GameInstance :=
  ⟨0, GState.playing, ["a"], [], ["a"]⟩

/-- A concrete registry holding one already-ended instance, used by the C7
witness. -/
def endedRegistry : Registry :=
  ⟨[(0, ⟨0, GState.ended, ["a"], [], []⟩)], [("a", 0)], 1, true⟩

/-- Witness for C7 at a playing instance and a registry holding it in the
ended state. -/
theorem c7_teardown_idempotent_witness :
    ((end_game (end_game playingInstance).1).1 = (end_game playingInstance).1) ∧
    ((end_game (end_game playingInstance).1).2 = false) ∧
    ((¬ playingInstance.game_state = GState.ended) →
      (end_game playingInstance).2 = true) ∧
    teardownStep 0 (teardownStep 0 endedRegistry).1 =
      ((teardownStep 0 endedRegistry).1, []) :=
  c7_teardown_idempotent playingInstance 0 endedRegistry (by decide)

/-- C9. Round-trip under the Zombies default configuration: for every
identity, a join click on the empty registry (which creates instance 0 and
installs the broadcast override) followed by an immediate leave puts
instance 0 in the terminal ended state with the identity's directory entry
released, and the pending teardown task then removes the instance from the
registry and, it being the last live instance, uninstalls the override. -/
theorem c9_join_leave_roundtrip (u : String) :
    (joinClick zombiesDefaultConfig u initialRegistry).1.overrideInstalled = true ∧
    (lookupG (leaveReg zombiesDefaultConfig u
        (joinClick zombiesDefaultConfig u initialRegistry).1).1.active_games 0).map
        GameInstance.game_state = some GState.ended ∧
    lookupA (leaveReg zombiesDefaultConfig u
        (joinClick zombiesDefaultConfig u initialRegistry).1).1.player_to_game u
      = none ∧
    (teardownStep 0 (leaveReg zombiesDefaultConfig u
        (joinClick zombiesDefaultConfig u initialRegistry).1).1).1.active_games
      = [] ∧
    (teardownStep 0 (leaveReg zombiesDefaultConfig u
        (joinClick zombiesDefaultConfig u initialRegistry).1).1).1.overrideInstalled
      = false := by
  have h1 : (joinClick zombiesDefaultConfig u initialRegistry).1 =
      ⟨[(0, ⟨0, GState.waiting, [u], [u], []⟩)], [(u, 0)], 1, true⟩ := by
    simp [joinClick, initialRegistry, memA, lookupA, findJoinableGame,
      add_player, newGameInstance, insertUniq, setA, zombiesDefaultConfig]
  have h2 : (leaveReg zombiesDefaultConfig u
      (⟨[(0, ⟨0, GState.waiting, [u], [u], []⟩)], [(u, 0)], 1, true⟩ : Registry)).1 =
      ⟨[(0, ⟨0, GState.ended, [], [], []⟩)], [], 1, true⟩ := by
    simp [leaveReg, lookupA, lookupG, remove_player, end_game, discardS,
      delA, updateG, zombiesDefaultConfig]
  have h3 : (teardownStep 0
      (⟨[(0, ⟨0, GState.ended, [], [], []⟩)], [], 1, true⟩ : Registry)).1 =
      ⟨[], [], 1, false⟩ := by
    simp [teardownStep, lookupG, endGameTeardown, delG]
  rw [h1, h2, h3]
  refine ⟨rfl, ?_, ?_, ?_, ?_⟩ <;> simp [lookupG, lookupA]

/-! ## `Squid_Game.py` join and countdown (for C4 and C5)

The red-light/green-light module reimplements `add_player` and the
countdown with two deviations from `Zombies.py`/`FreeForAll.py`: joins are
accepted only in the waiting state (a countdown-phase join is silently
dropped, lines 178–180), and the countdown has a single configured duration
with no shortened full-roster variant (line 196). -/

/-- Lifecycle keys of `DEFAULT_CONFIG` in `Squid_Game.py`: there is no
`countdown_full` key. -/
structure SquidConfig where
  min_players : Nat
  max_players : Nat
  countdown_normal : Nat
deriving DecidableEq, Repr

def squidDefaultConfig : SquidConfig :=
  { min_players := 1, max_players := 12, countdown_normal := 45 }

/-- The roster-bearing state of a `Squid_Game.py` `GameInstance`. -/
structure SquidInstance where
  game_id : Nat
  game_state : GState
  players : List String
deriving DecidableEq, Repr

/-- `GameInstance.add_player` of `Squid_Game.py` (lines 178–190): a bare
`return` — no notification — unless the state is exactly waiting and the
roster is below `max_players`. -/
def squid_add_player (cfg : SquidConfig) (u : String) (g : SquidInstance)
    (d : List (String × Nat)) :
    SquidInstance × List (String × Nat) × List Send :=
  if ¬ g.game_state = GState.waiting then (g, d, [])
  else if cfg.max_players ≤ g.players.length then (g, d, [])
  else
    let g1 := { g with players := insertUniq g.players u }
    (g1, setA d u g.game_id,
      [Send.toMainWorld (u ++ "|-999|-999|Default|0|0|PLAYER_INFO"),
       Send.toUser u "WORLD_DATA|PLACERSERVER|<lobby world json>",
       Send.toRoster g1.players ("TELLRAW|PLACERSERVER|" ++ u ++ " joined!")])

/-- C4 counterexample: in `Squid_Game.py`, a join against an instance in the
countdown state with a roster far below capacity is rejected — the instance,
directory and sends are all unchanged and empty — although the claim says a
join in Countdown below capacity is accepted, and that any rejection is
notified to the requester. -/
theorem c4_countdown_join_rejected_in_squid :
    (⟨0, GState.countdown, []⟩ : SquidInstance).game_state = GState.countdown ∧
    (⟨0, GState.countdown, []⟩ : SquidInstance).players.length <
      squidDefaultConfig.max_players ∧
    squid_add_player squidDefaultConfig "alice" ⟨0, GState.countdown, []⟩ [] =
      (⟨0, GState.countdown, []⟩, [], []) := by
  refine ⟨rfl, by decide, ?_⟩
  rfl

/-- C4 (amended). In `Zombies.py`/`FreeForAll.py`, `add_player` accepts
exactly in waiting/countdown below capacity, and rejections notify the
requesting connection only, leaving instance and directory unchanged; in
`Squid_Game.py`, it accepts exactly in waiting below capacity, and
rejections are silent no-ops. -/
theorem c4_amended_join_policy (cfg : GameConfig) (u : String)
    (g : GameInstance) (d : List (String × Nat)) (scfg : SquidConfig)
    (sg : SquidInstance) :
    (((g.game_state = GState.waiting ∨ g.game_state = GState.countdown) ∧
        g.players.length < cfg.max_players) →
      (add_player cfg u g d).1.players = insertUniq g.players u ∧
      (add_player cfg u g d).2.1 = setA d u g.game_id) ∧
    (¬ ((g.game_state = GState.waiting ∨ g.game_state = GState.countdown) ∧
        g.players.length < cfg.max_players) →
      (add_player cfg u g d).1 = g ∧ (add_player cfg u g d).2.1 = d ∧
      ∃ m, (add_player cfg u g d).2.2 = [Send.toUser u m]) ∧
    ((sg.game_state = GState.waiting ∧ sg.players.length < scfg.max_players) →
      (squid_add_player scfg u sg d).1.players = insertUniq sg.players u ∧
      (squid_add_player scfg u sg d).2.1 = setA d u sg.game_id) ∧
    (¬ (sg.game_state = GState.waiting ∧ sg.players.length < scfg.max_players) →
      squid_add_player scfg u sg d = (sg, d, [])) := by
  refine ⟨?_, ?_, ?_, ?_⟩
  · intro hc
    rcases add_player_cases cfg u g d with ⟨hrej, _⟩ | ⟨_, hpl, _, hdir⟩
    · exact absurd hc hrej
    · exact ⟨hpl, hdir⟩
  · intro hc
    rcases add_player_cases cfg u g d with ⟨_, hg, hd, hm⟩ | ⟨hacc, _⟩
    · exact ⟨hg, hd, hm⟩
    · exact absurd hacc hc
  · intro hc
    unfold squid_add_player
    rw [if_neg (not_not_intro hc.1), if_neg (by omega)]
    exact ⟨rfl, rfl⟩
  · intro hc
    unfold squid_add_player
    by_cases hst : sg.game_state = GState.waiting
    · rw [if_neg (not_not_intro hst)]
      rw [if_pos (by by_contra hlen; exact hc ⟨hst, by omega⟩)]
    · rw [if_pos hst]

/-- Witness for C4 (amended): a waiting Zombies instance accepts, a full one
rejects with a direct notice, and a waiting Squid instance accepts. -/
theorem c4_amended_join_policy_witness :
    ((((⟨0, GState.waiting, [], [], []⟩ : GameInstance).game_state = GState.waiting ∨
        (⟨0, GState.waiting, [], [], []⟩ : GameInstance).game_state = GState.countdown) ∧
        (⟨0, GState.waiting, [], [], []⟩ : GameInstance).players.length <
          zombiesDefaultConfig.max_players) →
      (add_player zombiesDefaultConfig "a" ⟨0, GState.waiting, [], [], []⟩ []).1.players =
        insertUniq ([] : List String) "a" ∧
      (add_player zombiesDefaultConfig "a" ⟨0, GState.waiting, [], [], []⟩ []).2.1 =
        setA [] "a" 0) ∧
    (¬ (((⟨0, GState.waiting, [], [], []⟩ : GameInstance).game_state = GState.waiting ∨
        (⟨0, GState.waiting, [], [], []⟩ : GameInstance).game_state = GState.countdown) ∧
        (⟨0, GState.waiting, [], [], []⟩ : GameInstance).players.length <
          zombiesDefaultConfig.max_players) →
      (add_player zombiesDefaultConfig "a" ⟨0, GState.waiting, [], [], []⟩ []).1 =
        ⟨0, GState.waiting, [], [], []⟩ ∧
      (add_player zombiesDefaultConfig "a" ⟨0, GState.waiting, [], [], []⟩ []).2.1 = [] ∧
      ∃ m, (add_player zombiesDefaultConfig "a" ⟨0, GState.waiting, [], [], []⟩ []).2.2 =
        [Send.toUser "a" m]) ∧
    (((⟨0, GState.waiting, []⟩ : SquidInstance).game_state = GState.waiting ∧
        (⟨0, GState.waiting, []⟩ : SquidInstance).players.length <
          squidDefaultConfig.max_players) →
      (squid_add_player squidDefaultConfig "a" ⟨0, GState.waiting, []⟩ []).1.players =
        insertUniq ([] : List String) "a" ∧
      (squid_add_player squidDefaultConfig "a" ⟨0, GState.waiting, []⟩ []).2.1 =
        setA [] "a" 0) ∧
    (¬ ((⟨0, GState.waiting, []⟩ : SquidInstance).game_state = GState.waiting ∧
        (⟨0, GState.waiting, []⟩ : SquidInstance).players.length <
          squidDefaultConfig.max_players) →
      squid_add_player squidDefaultConfig "a" ⟨0, GState.waiting, []⟩ [] =
        (⟨0, GState.waiting, []⟩, [], [])) :=
  c4_amended_join_policy zombiesDefaultConfig "a" ⟨0, GState.waiting, [], [], []⟩ []
    squidDefaultConfig ⟨0, GState.waiting, []⟩

/-- Countdown duration selection of `Zombies.py` `start_countdown` (line
452) and `FreeForAll.py` `_countdown` (line 294):
`countdown_full if len(players) == max_players else countdown_normal`. -/
def countdownDuration (cfg : GameConfig) (rosterSize : Nat) : Nat :=
  if rosterSize = cfg.max_players then cfg.countdown_full
  else cfg.countdown_normal

/-- Countdown duration of `Squid_Game.py` (line 196): always
`countdown_normal`, whatever the roster size. -/
def squidCountdownDuration (cfg : SquidConfig) (_rosterSize : Nat) : Nat :=
  cfg.countdown_normal

/-- C5 counterexample: in `Squid_Game.py` a full roster gets the same
45-second countdown as any other roster — there is no shorter full-roster
duration, contradicting the claim for that module. -/
theorem c5_squid_full_roster_not_shorter :
    squidCountdownDuration squidDefaultConfig squidDefaultConfig.max_players = 45 ∧
    squidCountdownDuration squidDefaultConfig 1 = 45 ∧
    ¬ squidCountdownDuration squidDefaultConfig squidDefaultConfig.max_players <
      squidCountdownDuration squidDefaultConfig 1 := by
  refine ⟨rfl, rfl, by decide⟩

/-- C5 (amended). In `Zombies.py` and `FreeForAll.py` the countdown lasts
`countdown_full` exactly when the roster equals `max_players` and
`countdown_normal` otherwise, so whenever `countdown_full <
countdown_normal` — as in both default configurations (10 < 40 and
10 < 30) — a full roster gets a strictly shorter countdown; in
`Squid_Game.py` the duration is `countdown_normal` regardless of roster
size. -/
theorem c5_amended_countdown_duration (cfg : GameConfig) (n : Nat)
    (hlt : cfg.countdown_full < cfg.countdown_normal) :
    (n = cfg.max_players → countdownDuration cfg n = cfg.countdown_full) ∧
    (n ≠ cfg.max_players →
      countdownDuration cfg n = cfg.countdown_normal ∧
      countdownDuration cfg cfg.max_players < countdownDuration cfg n) ∧
    zombiesDefaultConfig.countdown_full < zombiesDefaultConfig.countdown_normal ∧
    ffaDefaultConfig.countdown_full < ffaDefaultConfig.countdown_normal ∧
    (∀ m k, squidCountdownDuration squidDefaultConfig m =
      squidCountdownDuration squidDefaultConfig k) := by
  refine ⟨?_, ?_, by decide, by decide, fun m k => rfl⟩
  · intro h
    unfold countdownDuration
    rw [if_pos h]
  · intro h
    unfold countdownDuration
    rw [if_neg h, if_pos rfl]
    exact ⟨rfl, hlt⟩

/-- Witness for C5 (amended) under the Zombies defaults at a non-full
roster of 3. -/
theorem c5_amended_countdown_duration_witness :
    ((3 : Nat) = zombiesDefaultConfig.max_players →
      countdownDuration zombiesDefaultConfig 3 =
        zombiesDefaultConfig.countdown_full) ∧
    ((3 : Nat) ≠ zombiesDefaultConfig.max_players →
      countdownDuration zombiesDefaultConfig 3 =
        zombiesDefaultConfig.countdown_normal ∧
      countdownDuration zombiesDefaultConfig zombiesDefaultConfig.max_players <
        countdownDuration zombiesDefaultConfig 3) ∧
    zombiesDefaultConfig.countdown_full < zombiesDefaultConfig.countdown_normal ∧
    ffaDefaultConfig.countdown_full < ffaDefaultConfig.countdown_normal ∧
    (∀ m k, squidCountdownDuration squidDefaultConfig m =
      squidCountdownDuration squidDefaultConfig k) :=
  c5_amended_countdown_duration zombiesDefaultConfig 3 (by decide)

/-! ## The countdown task (C6)

`Zombies.py` `start_countdown` (lines 446–472). The coroutine is embedded
with its suspension points numbered in execution order: each loop second
has an optional broadcast await (timer image when `i <= 5`, a TELLRAW every
fifth second otherwise) followed by the `asyncio.sleep(1)` await, and the
post-loop `HIDE_IMAGE` broadcast is one more await. `cancelAt = some k`
means `Task.cancel` raises `CancelledError` at suspension point `k`; the
`except` handler then sets `game_state = "waiting"` and broadcasts the
cancellation notice and `HIDE_IMAGE` (clearing the countdown visuals).
`remove_player` only issues the cancel while `game_state == "countdown"`,
and `start_game` flips the state to playing synchronously before its first
await, so every deliverable cancellation lands at one of these points. -/

structure CdOutcome where
  game_state : GState
  startedGame : Bool
  hideImageSent : Bool
  cancelDelivered : Bool
deriving DecidableEq, Repr

/-- Result of the `except asyncio.CancelledError` handler. -/
def cdCancelled : CdOutcome :=
  { game_state := GState.waiting, startedGame := false, hideImageSent := true,
    cancelDelivered := true }

/-- The countdown loop over the remaining seconds `i = wait_time, …, 1`,
with `idx` the index of the next suspension point. At `i = 0` the loop has
ended: the `HIDE_IMAGE` broadcast awaits once more, then the final roster
check either starts the game or reverts to waiting. -/
def countdownGo (minPlayers rosterAtExpiry : Nat) (cancelAt : Option Nat) :
    Nat → Nat → CdOutcome
  | 0, idx =>
    if cancelAt = some idx then cdCancelled
    else if minPlayers ≤ rosterAtExpiry then
      { game_state := GState.playing, startedGame := true,
        hideImageSent := true, cancelDelivered := false }
    else
      { game_state := GState.waiting, startedGame := false,
        hideImageSent := true, cancelDelivered := false }
  | i + 1, idx =>
    if i + 1 ≤ 5 ∨ (i + 1) % 5 = 0 then
      if cancelAt = some idx then cdCancelled
      else if cancelAt = some (idx + 1) then cdCancelled
      else countdownGo minPlayers rosterAtExpiry cancelAt i (idx + 2)
    else
      if cancelAt = some idx then cdCancelled
      else countdownGo minPlayers rosterAtExpiry cancelAt i (idx + 1)

/-- The whole countdown task: duration from the roster at start
(`countdownDuration`), final check against the roster at expiry. -/
def countdownRun (cfg : GameConfig) (rosterAtStart rosterAtExpiry : Nat)
    (cancelAt : Option Nat) : CdOutcome :=
  countdownGo cfg.min_players rosterAtExpiry cancelAt
    (countdownDuration cfg rosterAtStart) 0

theorem countdownGo_cancelDelivered (minP rexp : Nat) (cancelAt : Option Nat) :
    ∀ i idx, (countdownGo minP rexp cancelAt i idx).cancelDelivered = true →
      countdownGo minP rexp cancelAt i idx = cdCancelled := by
  intro i
  induction i with
  | zero =>
    intro idx h
    unfold countdownGo at h ⊢
    split at h
    · next hcan => rw [if_pos hcan]
    · next hcan =>
      rw [if_neg hcan]
      split at h <;> simp at h
  | succ n ih =>
    intro idx h
    unfold countdownGo at h ⊢
    split at h
    · next hbr =>
      rw [if_pos hbr]
      split at h
      · next hcan => rw [if_pos hcan]
      · next hcan =>
        rw [if_neg hcan]
        split at h
        · next hcan2 => rw [if_pos hcan2]
        · next hcan2 =>
          rw [if_neg hcan2]
          exact ih _ h
    · next hbr =>
      rw [if_neg hbr]
      split at h
      · next hcan => rw [if_pos hcan]
      · next hcan =>
        rw [if_neg hcan]
        exact ih _ h

theorem countdownGo_under_min (minP rexp : Nat) (cancelAt : Option Nat)
    (hlt : rexp < minP) :
    ∀ i idx, (countdownGo minP rexp cancelAt i idx).game_state = GState.waiting ∧
      (countdownGo minP rexp cancelAt i idx).startedGame = false := by
  intro i
  induction i with
  | zero =>
    intro idx
    unfold countdownGo
    split
    · exact ⟨rfl, rfl⟩
    · rw [if_neg (by omega)]
      exact ⟨rfl, rfl⟩
  | succ n ih =>
    intro idx
    unfold countdownGo
    split
    · split
      · exact ⟨rfl, rfl⟩
      · split
        · exact ⟨rfl, rfl⟩
        · exact ih _
    · split
      · exact ⟨rfl, rfl⟩
      · exact ih _

/-- C6. If the countdown task's cancellation (issued by `remove_player`
when the roster drops below `min_players` during countdown) is delivered at
any suspension point, the instance ends in waiting, never transitions to
playing from that countdown, and the countdown visuals are cleared
(`HIDE_IMAGE` broadcast) — and even without cancellation, a roster below the
minimum at expiry reverts the instance to waiting rather than starting. -/
theorem c6_countdown_cancel_reverts (cfg : GameConfig)
    (rosterAtStart rosterAtExpiry : Nat) (cancelAt : Option Nat)
    (h : (countdownRun cfg rosterAtStart rosterAtExpiry cancelAt).cancelDelivered
      = true) :
    (countdownRun cfg rosterAtStart rosterAtExpiry cancelAt).game_state =
      GState.waiting ∧
    (countdownRun cfg rosterAtStart rosterAtExpiry cancelAt).startedGame = false ∧
    (countdownRun cfg rosterAtStart rosterAtExpiry cancelAt).hideImageSent = true ∧
    (rosterAtExpiry < cfg.min_players →
      ∀ c2 : Option Nat,
        (countdownRun cfg rosterAtStart rosterAtExpiry c2).game_state =
          GState.waiting ∧
        (countdownRun cfg rosterAtStart rosterAtExpiry c2).startedGame = false) := by
  have hc := countdownGo_cancelDelivered cfg.min_players rosterAtExpiry cancelAt
    (countdownDuration cfg rosterAtStart) 0 h
  unfold countdownRun at hc ⊢
  rw [hc]
  refine ⟨rfl, rfl, rfl, ?_⟩
  intro hlt c2
  exact countdownGo_under_min cfg.min_players rosterAtExpiry c2 hlt _ _

/-- Witness for C6 under Zombies defaults: cancellation delivered at
suspension point 3 of a 3-player countdown whose roster then dropped to 1. -/
theorem c6_countdown_cancel_reverts_witness :
    (countdownRun zombiesDefaultConfig 3 1 (some 3)).game_state =
      GState.waiting ∧
    (countdownRun zombiesDefaultConfig 3 1 (some 3)).startedGame = false ∧
    (countdownRun zombiesDefaultConfig 3 1 (some 3)).hideImageSent = true ∧
    (1 < zombiesDefaultConfig.min_players →
      ∀ c2 : Option Nat,
        (countdownRun zombiesDefaultConfig 3 1 c2).game_state =
          GState.waiting ∧
        (countdownRun zombiesDefaultConfig 3 1 c2).startedGame = false) :=
  c6_countdown_cancel_reverts zombiesDefaultConfig 3 1 (some 3) (by decide)

/-! ## The simulation loop's failure policy (C8)

`Zombies.py` `game_loop` (lines 494–550), same shape in `FreeForAll.py`
(lines 370–406): `while playing: try: <tick body> except CancelledError:
break except Exception: log`. One iteration's body is summarised by its
outcome: it ran to completion, raised an ordinary exception (caught and
logged, loop continues), was cancelled at an await (loop breaks
immediately), or ended the game and returned. The loop is run against the
list of outcomes of its successive iterations; outcomes left after a
cancellation are the iterations that never run. -/

inductive TickOutcome where
  | normal
  | bodyError
  | cancelled
  | gameOver
deriving DecidableEq, Repr

structure LoopTrace where
  ticksEntered : Nat
  errorsLogged : Nat
  unprocessed : List TickOutcome
deriving DecidableEq, Repr

def game_loop : List TickOutcome → LoopTrace
  | [] => { ticksEntered := 0, errorsLogged := 0, unprocessed := [] }
  | TickOutcome.normal :: rest =>
    let t := game_loop rest
    { t with ticksEntered := t.ticksEntered + 1 }
  | TickOutcome.bodyError :: rest =>
    let t := game_loop rest
    { ticksEntered := t.ticksEntered + 1, errorsLogged := t.errorsLogged + 1,
      unprocessed := t.unprocessed }
  | TickOutcome.cancelled :: rest =>
    { ticksEntered := 1, errorsLogged := 0, unprocessed := rest }
  | TickOutcome.gameOver :: rest =>
    { ticksEntered := 1, errorsLogged := 0, unprocessed := rest }

def countErrors : List TickOutcome → Nat
  | [] => 0
  | TickOutcome.bodyError :: rest => countErrors rest + 1
  | _ :: rest => countErrors rest

/-- C8. For every prefix of tick outcomes containing only completed or
exception-raising bodies: the loop runs every one of them (each exception is
caught, logged — the log count equals the number of failing ticks — and the
loop proceeds to the next tick rather than stopping), and a cancellation
arriving after that prefix stops the loop at that very tick, leaving every
later tick unexecuted. -/
theorem c8_tick_errors_logged_cancel_stops (pre rest : List TickOutcome)
    (hpre : ∀ t ∈ pre, t = TickOutcome.normal ∨ t = TickOutcome.bodyError) :
    (game_loop pre).ticksEntered = pre.length ∧
    (game_loop pre).errorsLogged = countErrors pre ∧
    (game_loop pre).unprocessed = [] ∧
    (game_loop (pre ++ TickOutcome.cancelled :: rest)).ticksEntered =
      pre.length + 1 ∧
    (game_loop (pre ++ TickOutcome.cancelled :: rest)).errorsLogged =
      countErrors pre ∧
    (game_loop (pre ++ TickOutcome.cancelled :: rest)).unprocessed = rest := by
  induction pre with
  | nil =>
    refine ⟨rfl, rfl, rfl, ?_, ?_, ?_⟩ <;> rfl
  | cons t pre ih =>
    have hpre2 : ∀ t2 ∈ pre, t2 = TickOutcome.normal ∨ t2 = TickOutcome.bodyError :=
      fun t2 h2 => hpre t2 (List.mem_cons_of_mem t h2)
    obtain ⟨h1, h2, h3, h4, h5, h6⟩ := ih hpre2
    rcases hpre t (List.mem_cons_self t pre) with ht | ht <;> rw [ht]
    · rw [List.cons_append]
      unfold game_loop countErrors
      refine ⟨?_, ?_, ?_, ?_, ?_, ?_⟩ <;>
        simp only [h1, h2, h3, h4, h5, h6, List.length_cons]
    · rw [List.cons_append]
      unfold game_loop countErrors
      refine ⟨?_, ?_, ?_, ?_, ?_, ?_⟩ <;>
        simp only [h1, h2, h3, h4, h5, h6, List.length_cons]

/-- Witness for C8: two ticks (one failing) then a cancellation, with one
never-run tick behind it. -/
theorem c8_tick_errors_logged_cancel_stops_witness :
    (game_loop [TickOutcome.normal, TickOutcome.bodyError]).ticksEntered =
      ([TickOutcome.normal, TickOutcome.bodyError] : List TickOutcome).length ∧
    (game_loop [TickOutcome.normal, TickOutcome.bodyError]).errorsLogged =
      countErrors [TickOutcome.normal, TickOutcome.bodyError] ∧
    (game_loop [TickOutcome.normal, TickOutcome.bodyError]).unprocessed = [] ∧
    (game_loop ([TickOutcome.normal, TickOutcome.bodyError] ++
        TickOutcome.cancelled :: [TickOutcome.normal])).ticksEntered =
      ([TickOutcome.normal, TickOutcome.bodyError] : List TickOutcome).length + 1 ∧
    (game_loop ([TickOutcome.normal, TickOutcome.bodyError] ++
        TickOutcome.cancelled :: [TickOutcome.normal])).errorsLogged =
      countErrors [TickOutcome.normal, TickOutcome.bodyError] ∧
    (game_loop ([TickOutcome.normal, TickOutcome.bodyError] ++
        TickOutcome.cancelled :: [TickOutcome.normal])).unprocessed =
      [TickOutcome.normal] :=
  c8_tick_errors_logged_cancel_stops [TickOutcome.normal, TickOutcome.bodyError]
    [TickOutcome.normal] (by decide)

/-! ## Concurrent join requests (C2, C3)

The handler code is `FreeForAll.py` `on_message` (lines 652–668) together
with `GameInstance.add_player` (lines 259–285); `Zombies.py` (lines
849–866) is the same except that its find-or-create block is atomic by
virtue of containing no await, where FreeForAll holds
`game_creation_lock`. The dispatcher that runs one handler task per inbound
message on the single event loop is not part of src/ (spec §2/§5/§6: the
transport is an external collaborator; scheduling is single-threaded
cooperative concurrency whose tasks interleave only at explicit suspension
points), so the scheduling is modelled from the spec.

Each join-click handler splits into two atomic segments separated by one
suspension:

* segment A — the already-claimed guard, find-or-create of the target
  instance (installing the broadcast override on first creation; this whole
  block is under `game_creation_lock` and contains no await), and
  `add_player`'s own state and capacity checks, ending at
  `await asyncio.gather(despawn …)` over the main-world sockets. The
  requester itself is still a main-world client at this point, so the
  gather always suspends.
* segment B — the resumed remainder that touches shared state:
  `self.players[username] = Player(username)` and
  `player_to_game[username] = game_id`. (The subsequent teleport,
  broadcast and countdown trigger add further awaits; the countdown task's
  later state flip keeps the instance joinable — waiting and countdown are
  equally eligible — so it is irrelevant to creation and capacity.)

The capacity check lives in segment A and the roster claim in segment B,
and the lock covers neither pair together. -/

structure JoinTask where
  user : String
  pc : Nat
  target : Option Nat
deriving DecidableEq, Repr

structure SchedState where
  reg : Registry
  tasks : List JoinTask
  created : Nat
deriving DecidableEq, Repr

/-- Segment A. Returns the registry (updated when an instance was
constructed and registered), the chosen target instance (none when the
handler aborted: duplicate join, or `add_player` rejection), and whether a
new instance was constructed. -/
def joinSegmentA (cfg : GameConfig) (u : String) (r : Registry) :
    Registry × Option Nat × Bool :=
  if memA r.player_to_game u then (r, none, false)
  else
    match findJoinableGame cfg r.active_games with
    | some (gid, g) =>
      if (g.game_state = GState.waiting ∨ g.game_state = GState.countdown) ∧
          g.players.length < cfg.max_players
      then (r, some gid, false)
      else (r, none, false)
    | none =>
      let gid := r.next_game_id
      let r1 : Registry :=
        { active_games := r.active_games ++ [(gid, newGameInstance gid)],
          player_to_game := r.player_to_game,
          next_game_id := gid + 1,
          overrideInstalled := r.overrideInstalled || r.active_games.isEmpty }
      if 0 < cfg.max_players then (r1, some gid, true)
      else (r1, none, true)

/-- Segment B: the roster add and directory claim, with no re-check of the
capacity verified back in segment A. -/
def rosterClaim (u : String) (gid : Nat) (r : Registry) : Registry :=
  match lookupG r.active_games gid with
  | none => r
  | some g =>
    { r with
      active_games := updateG r.active_games gid
        { g with players := insertUniq g.players u,
                 lobby_players := insertUniq g.lobby_players u },
      player_to_game := setA r.player_to_game u gid }

/-- Run the next segment of task `i` (a no-op for an invalid index or a
finished task). -/
def taskStep (cfg : GameConfig) (s : SchedState) (i : Nat) : SchedState :=
  match s.tasks.get? i with
  | none => s
  | some t =>
    if t.pc = 0 then
      let res := joinSegmentA cfg t.user s.reg
      { reg := res.1,
        tasks := s.tasks.set i
          { t with pc := if res.2.1 = none then 2 else 1, target := res.2.1 },
        created := s.created + (if res.2.2 then 1 else 0) }
    else if t.pc = 1 then
      match t.target with
      | some gid =>
        { s with reg := rosterClaim t.user gid s.reg,
                 tasks := s.tasks.set i { t with pc := 2 } }
      | none => { s with tasks := s.tasks.set i { t with pc := 2 } }
    else s

/-- Run a whole interleaving: the schedule names, in order, which task's
next segment the event loop resumes. -/
def runSched (cfg : GameConfig) (sched : List Nat) (s : SchedState) :
    SchedState :=
  sched.foldl (taskStep cfg) s

/-- One pending join-click task per requesting identity, against the empty
registry. -/
def initSched (users : List String) : SchedState :=
  ⟨initialRegistry, users.map (fun u => ⟨u, 0, none⟩), 0⟩

/-- C3. Evaluating the join handlers at the failing interleaving: capacity
1, two concurrent joins, both segment-A capacity checks pass before either
segment B claims the roster, and the single instance ends with roster size
2 — population drifted above capacity between the check and the claim.
(Only one instance was created; the creation race itself does not fire.) -/
theorem c3_capacity_overrun_interleaving :
    (lookupG (runSched ⟨1, 1, 30, 10⟩ [0, 1, 0, 1]
        (initSched ["a", "b"])).reg.active_games 0).map
      (fun g => g.players.length) = some 2 ∧
    (⟨1, 1, 30, 10⟩ : GameConfig).max_players = 1 ∧
    (runSched ⟨1, 1, 30, 10⟩ [0, 1, 0, 1] (initSched ["a", "b"])).created = 1 := by
  refine ⟨?_, rfl, ?_⟩ <;> rfl

/-- C2. Evaluating the join handlers at the failing interleaving, with
capacity 1 and three concurrent join clicks — identity u, identity v, then
u again. Both u-handlers pass the already-claimed guard (u is in the
directory only after segment B), v fills the first instance so the second
u-handler creates a second one, and when the first u-handler finally
resumes, u sits in the rosters of two live waiting instances while its
directory entry u↦1, claimed by the second join, is silently overwritten to
u↦0 — refuting "each player identity appears in at most one live instance's
roster", "the directory entry names the instance whose roster contains it"
(instance 1's roster holds u but no entry points there), and "a second join
attempt ... does not overwrite the existing claim". -/
theorem c2_duplicate_identity_interleaving :
    (lookupG (runSched ⟨1, 1, 30, 10⟩ [0, 1, 1, 2, 2, 0]
        (initSched ["u", "v", "u"])).reg.active_games 0).map
      GameInstance.players = some ["u", "v"] ∧
    (lookupG (runSched ⟨1, 1, 30, 10⟩ [0, 1, 1, 2, 2, 0]
        (initSched ["u", "v", "u"])).reg.active_games 1).map
      GameInstance.players = some ["u"] ∧
    (lookupG (runSched ⟨1, 1, 30, 10⟩ [0, 1, 1, 2, 2, 0]
        (initSched ["u", "v", "u"])).reg.active_games 0).map
      GameInstance.game_state = some GState.waiting ∧
    (lookupG (runSched ⟨1, 1, 30, 10⟩ [0, 1, 1, 2, 2, 0]
        (initSched ["u", "v", "u"])).reg.active_games 1).map
      GameInstance.game_state = some GState.waiting ∧
    lookupA (runSched ⟨1, 1, 30, 10⟩ [0, 1, 1, 2, 2, 0]
        (initSched ["u", "v", "u"])).reg.player_to_game "u" = some 0 ∧
    ¬ (∀ e1 ∈ (runSched ⟨1, 1, 30, 10⟩ [0, 1, 1, 2, 2, 0]
          (initSched ["u", "v", "u"])).reg.active_games,
        ∀ e2 ∈ (runSched ⟨1, 1, 30, 10⟩ [0, 1, 1, 2, 2, 0]
          (initSched ["u", "v", "u"])).reg.active_games,
        ∀ x ∈ e1.2.players, x ∈ e2.2.players → e1 = e2) := by
  refine ⟨rfl, rfl, rfl, rfl, rfl, ?_⟩
  decide

def countDone : List JoinTask → Nat
  | [] => 0
  | t :: rest => (if t.pc = 2 then 1 else 0) + countDone rest

theorem countDone_le_length (ts : List JoinTask) : countDone ts ≤ ts.length := by
  induction ts with
  | nil => exact Nat.le_refl 0
  | cons t rest ih =>
    rw [countDone, List.length_cons]
    split <;> omega

theorem countDone_lt_length {ts : List JoinTask} {i : Nat} {t : JoinTask}
    (hget : ts.get? i = some t) (hpc : ¬ t.pc = 2) :
    countDone ts < ts.length := by
  induction ts generalizing i with
  | nil => simp at hget
  | cons a rest ih =>
    rw [countDone, List.length_cons]
    cases i with
    | zero =>
      rw [List.get?_cons_zero] at hget
      injection hget with hget
      rw [hget, if_neg hpc]
      have := countDone_le_length rest
      omega
    | succ j =>
      rw [List.get?_cons_succ] at hget
      have := ih hget
      split <;> omega

theorem countDone_set {ts : List JoinTask} {i : Nat} {t : JoinTask}
    (t2 : JoinTask) (hget : ts.get? i = some t) :
    countDone (ts.set i t2) + (if t.pc = 2 then 1 else 0) =
      countDone ts + (if t2.pc = 2 then 1 else 0) := by
  induction ts generalizing i with
  | nil => simp at hget
  | cons a rest ih =>
    cases i with
    | zero =>
      rw [List.get?_cons_zero] at hget
      injection hget with hget
      rw [hget, List.set_cons_zero, countDone, countDone]
      omega
    | succ j =>
      rw [List.get?_cons_succ] at hget
      rw [List.set_cons_succ, countDone, countDone]
      have := ih hget
      omega

theorem updateG_length (l : List (Nat × GameInstance)) (k : Nat)
    (v : GameInstance) : (updateG l k v).length = l.length := by
  have h := congrArg List.length (updateG_keys l k v)
  simpa using h

theorem mem_updateG_weak {l : List (Nat × GameInstance)} {k : Nat}
    {v : GameInstance} {e : Nat × GameInstance} (h : e ∈ updateG l k v) :
    e = (k, v) ∨ e ∈ l := by
  induction l with
  | nil => simp [updateG] at h
  | cons a rest ih =>
    rw [updateG] at h
    split at h
    · rcases List.mem_cons.mp h with h1 | h1
      · exact Or.inl h1
      · exact Or.inr (List.mem_cons_of_mem a h1)
    · rcases List.mem_cons.mp h with h1 | h1
      · exact Or.inr (h1 ▸ List.mem_cons_self a rest)
      · rcases ih h1 with h2 | h2
        · exact Or.inl h2
        · exact Or.inr (List.mem_cons_of_mem a h2)

/-- The inductive invariant for the creation race: the number of
constructed instances equals the number of registered ones and never
exceeds one, and every registered instance is still waiting with a roster
no larger than the number of finished tasks. -/
structure C3Inv (n : Nat) (s : SchedState) : Prop where
  lenTasks : s.tasks.length = n
  createdEq : s.created = s.reg.active_games.length
  createdLe : s.created ≤ 1
  gamesOpen : ∀ e ∈ s.reg.active_games, e.2.game_state = GState.waiting ∧
    e.2.players.length ≤ countDone s.tasks

theorem c3Inv_taskStep (cfg : GameConfig) (n : Nat) (s : SchedState) (i : Nat)
    (hn : n ≤ cfg.max_players) (hI : C3Inv n s) : C3Inv n (taskStep cfg s i) := by
  unfold taskStep
  cases hget : s.tasks.get? i with
  | none => exact hI
  | some t =>
    dsimp only
    by_cases hpc0 : t.pc = 0
    · rw [if_pos hpc0]
      have hdone : countDone s.tasks < s.tasks.length :=
        countDone_lt_length hget (by omega)
      have hmono : ∀ t2 : JoinTask,
          countDone s.tasks ≤ countDone (s.tasks.set i t2) := by
        intro t2
        have h2 := countDone_set t2 hget
        rw [if_neg (by omega : ¬ t.pc = 2)] at h2
        omega
      rcases hsplit : joinSegmentA cfg t.user s.reg with ⟨r2, tgt, flag⟩
      have hfacts : (r2 = s.reg ∧ flag = false) ∨
          (s.created = 0 ∧ flag = true ∧
            r2.active_games =
              [(s.reg.next_game_id, newGameInstance s.reg.next_game_id)]) := by
        unfold joinSegmentA at hsplit
        by_cases hmem : memA s.reg.player_to_game t.user
        · rw [if_pos hmem] at hsplit
          injection hsplit with e1 e2
          injection e2 with e2 e3
          exact Or.inl ⟨e1.symm, e3.symm⟩
        · rw [if_neg hmem] at hsplit
          cases hfind : findJoinableGame cfg s.reg.active_games with
          | some e0 =>
            obtain ⟨gid, g⟩ := e0
            rw [hfind] at hsplit
            dsimp only at hsplit
            split at hsplit <;>
              (injection hsplit with e1 e2; injection e2 with e2 e3;
                exact Or.inl ⟨e1.symm, e3.symm⟩)
          | none =>
            have hagnil : s.reg.active_games = [] := by
              cases hag : s.reg.active_games with
              | nil => rfl
              | cons e0 rest =>
                exfalso
                have hmem0 : e0 ∈ s.reg.active_games := by
                  rw [hag]
                  exact List.mem_cons_self e0 rest
                obtain ⟨h1, h2⟩ := hI.gamesOpen e0 hmem0
                have hlt : e0.2.players.length < cfg.max_players := by
                  have := hI.lenTasks
                  omega
                rw [hag, findJoinableGame, if_pos ⟨Or.inl h1, hlt⟩] at hfind
                exact Option.noConfusion hfind
            have hcr : s.created = 0 := by
              have := hI.createdEq
              rw [hagnil] at this
              simpa using this
            rw [hfind] at hsplit
            dsimp only at hsplit
            rw [hagnil] at hsplit
            split at hsplit <;>
              (injection hsplit with e1 e2; injection e2 with e2 e3;
                refine Or.inr ⟨hcr, e3.symm, ?_⟩;
                rw [← e1];
                rfl)
      rcases hfacts with ⟨hr2, hflag⟩ | ⟨hcr, hflag, hag2⟩
      · subst hr2
        rw [hflag]
        refine ⟨by simp [hI.lenTasks], ?_, ?_, ?_⟩
        · dsimp only
          rw [hI.createdEq, if_neg Bool.false_ne_true, Nat.add_zero]
        · dsimp only
          rw [if_neg Bool.false_ne_true, Nat.add_zero]
          exact hI.createdLe
        · intro e he
          dsimp only at he
          obtain ⟨h1, h2⟩ := hI.gamesOpen e he
          exact ⟨h1, Nat.le_trans h2 (hmono _)⟩
      · rw [hflag]
        refine ⟨by simp [hI.lenTasks], ?_, ?_, ?_⟩
        · dsimp only
          rw [hcr, hag2, if_pos rfl]
          rfl
        · dsimp only
          rw [hcr, if_pos rfl]
        · intro e he
          dsimp only at he
          rw [hag2, List.mem_singleton] at he
          rw [he]
          exact ⟨rfl, Nat.zero_le _⟩
    · rw [if_neg hpc0]
      by_cases hpc1 : t.pc = 1
      · rw [if_pos hpc1]
        have hcount : countDone (s.tasks.set i { t with pc := 2 }) =
            countDone s.tasks + 1 := by
          have h2 := countDone_set { t with pc := 2 } hget
          rw [if_neg (by omega : ¬ t.pc = 2), if_pos rfl] at h2
          omega
        cases htar : t.target with
        | none =>
          dsimp only
          rw [htar] at hcount
          refine ⟨by simp [hI.lenTasks], hI.createdEq, hI.createdLe, ?_⟩
          intro e he
          obtain ⟨h1, h2⟩ := hI.gamesOpen e he
          refine ⟨h1, ?_⟩
          dsimp only
          omega
        | some gid =>
          dsimp only
          rw [htar] at hcount
          cases hg : lookupG s.reg.active_games gid with
          | none =>
            have hred : rosterClaim t.user gid s.reg = s.reg := by
              unfold rosterClaim
              rw [hg]
            rw [hred]
            refine ⟨by simp [hI.lenTasks], hI.createdEq, hI.createdLe, ?_⟩
            intro e he
            dsimp only at he
            obtain ⟨h1, h2⟩ := hI.gamesOpen e he
            refine ⟨h1, ?_⟩
            dsimp only
            omega
          | some g =>
            have hred : rosterClaim t.user gid s.reg =
                { s.reg with
                  active_games := updateG s.reg.active_games gid
                    { g with players := insertUniq g.players t.user,
                             lobby_players := insertUniq g.lobby_players t.user }
                  player_to_game := setA s.reg.player_to_game t.user gid } := by
              unfold rosterClaim
              rw [hg]
            rw [hred]
            refine ⟨by simp [hI.lenTasks], ?_, hI.createdLe, ?_⟩
            · dsimp only
              rw [updateG_length]
              exact hI.createdEq
            · intro e he
              dsimp only at he
              rcases mem_updateG_weak he with h1 | h1
              · obtain ⟨hg1, hg2⟩ := hI.gamesOpen (gid, g) (lookupG_eq_some_mem hg)
                dsimp only at hg2
                rw [h1]
                refine ⟨hg1, ?_⟩
                dsimp only
                have hins : (insertUniq g.players t.user).length ≤
                    g.players.length + 1 := by
                  unfold insertUniq
                  split
                  · omega
                  · rw [List.length_cons]
                omega
              · obtain ⟨hg1, hg2⟩ := hI.gamesOpen e h1
                refine ⟨hg1, ?_⟩
                dsimp only
                omega
      · rw [if_neg hpc1]
        exact hI
/-- The creation half of C3, proved for all interleavings: when one
instance would satisfy every request (at most `max_players` concurrent
joins against the empty registry), every schedule constructs at most one
instance. -/
theorem c3_at_most_one_instance_created (cfg : GameConfig)
    (users : List String) (sched : List Nat)
    (hle : users.length ≤ cfg.max_players) :
    (runSched cfg sched (initSched users)).created ≤ 1 := by
  have hinit : C3Inv users.length (initSched users) := by
    refine ⟨by simp [initSched], rfl, by dsimp only [initSched]; omega, ?_⟩
    intro e he
    simp [initSched, initialRegistry] at he
  have hrun : ∀ (s : SchedState), C3Inv users.length s →
      C3Inv users.length (runSched cfg sched s) := by
    unfold runSched
    induction sched with
    | nil => intro s hs; exact hs
    | cons i rest ih =>
      intro s hs
      rw [List.foldl_cons]
      exact ih _ (c3Inv_taskStep cfg users.length s i hle hs)
  exact (hrun _ hinit).createdLe

/-- Witness for C10 at a concrete 2×3 grid. -/
theorem c10_rle_encode_roundtrip_witness :
    rle_encode [[1, 1, 7], [7, 7, 7]] =
        String.intercalate ","
          ((rleRuns ([[1, 1, 7], [7, 7, 7]] : List (List Int)).flatten).map renderRun) ∧
      (∀ r ∈ rleRuns ([[1, 1, 7], [7, 7, 7]] : List (List Int)).flatten, 0 < r.1) ∧
      runLengthSum (rleRuns ([[1, 1, 7], [7, 7, 7]] : List (List Int)).flatten) = 3 * 2 ∧
      expandRuns (rleRuns ([[1, 1, 7], [7, 7, 7]] : List (List Int)).flatten) =
        ([[1, 1, 7], [7, 7, 7]] : List (List Int)).flatten :=
  c10_rle_encode_roundtrip [[1, 1, 7], [7, 7, 7]] 3 2 (by decide)
    (by decide) (by decide) (by decide)

end Plasocket
